import Mathlib

/-!
Verification development for the connectivity-graph viewer.

Shallow embedding of the TypeScript sources:
- `graph.ts` (the `ConnectivityGraph` model builder, `trimLabel`,
  `capitalizeLabels`, and the Cytoscape adapter state), and
- `src/index.ts` (the `App` view controller: schema-version gate,
  label cache population, source/path/layout/search handlers).

Conventions of the embedding:
- JS strings are Lean `String`; where line-splitting reasoning is needed,
  `Array.prototype.join` and `String.prototype.split` on a single newline
  are modelled at the character-list level (`joinLines` / `splitLines`),
  which agrees with JS semantics (split on every occurrence of the
  one-character separator, empty string splits to one empty piece).
- A value that may be `undefined` in JS is an `Option`; a JS field access
  or method call on `undefined` (a thrown `TypeError`) is `Except.error`.
- JS `Map` objects are association lists with insert-or-replace update,
  preserving insertion order as JS maps do.
- Numbers reached by JS arithmetic in `getSchemaVersion` are modelled by
  `JSNum` (rationals plus NaN and the infinities); floating point rounding
  is irrelevant at the magnitudes involved.
- Purely visual DOM toggles (spinner, disabled flags) are not part of the
  state; option visibility, option selection, the prompt, the tooltip
  count and the address-bar query parameters are.
-/

namespace ConnViewer

/-- A KnowledgeNode from `graph.ts`: `[string, string[]]` — a primary term
plus an ordered list of qualifying terms. -/
abbrev KnowledgeNode := String × List String

/-- A KnowledgeEdge: an ordered (source, target) pair of KnowledgeNodes. -/
abbrev KnowledgeEdge := KnowledgeNode × KnowledgeNode

/-- A raw `ConnectivityKnowledge` record as it arrives from the network.
Every field is optional because the JSON may be malformed or partial; the
TS interface declares all four, but callers can pass objects missing any
of them (duck typing). `addConnectivity` checks `somas` with an `in`
guard and dereferences the other three unconditionally. -/
structure RawKnowledge where
  connectivity : Option (List KnowledgeEdge)
  axons : Option (List KnowledgeNode)
  dendrites : Option (List KnowledgeNode)
  somas : Option (List KnowledgeNode)
  deriving DecidableEq, Repr

/-- A presentation-ready GraphNode. The JS object carries at most one of
the role keys (`axon`, `dendrite`, `soma`, `both-a-d`); here each is a
Bool defaulting to false, `bothAD` standing for the `both-a-d` key. -/
structure GraphNode where
  id : String
  label : String
  axon : Bool := false
  dendrite : Bool := false
  soma : Bool := false
  bothAD : Bool := false
  deriving DecidableEq, Repr

/-- A GraphEdge: id is the source id and target id joined by an
underscore. -/
structure GraphEdge where
  id : String
  source : String
  target : String
  deriving DecidableEq, Repr

/-- The label cache (a JS `Map<string, string>`): an association list with
insert-or-replace update, as JS maps behave. -/
abbrev LabelMap := List (String × String)

/-- `Map.prototype.set` (also `URLSearchParams.set`): replace the value
in place if the key exists, else append the new pair. -/
def mapSet {α : Type} (m : List (String × α)) (k : String) (v : α) : List (String × α) :=
  if m.any (fun p => p.1 = k) then
    m.map (fun p => if p.1 = k then (k, v) else p)
  else
    m ++ [(k, v)]

/-- `Map.prototype.get` combined with `has`: the first value stored under
the key, if any. -/
def mapGet {α : Type} (m : List (String × α)) (k : String) : Option α :=
  (m.find? (fun p => p.1 = k)).map (fun p => p.2)

/-- JSON string escaping for the two characters that can occur in term
identifiers and need escaping (quote and backslash); control characters
are not used by the data this program serializes. Models the per-character
behaviour of `JSON.stringify` on strings. -/
def jsonEscapeChar (c : Char) : List Char :=
  if c = '"' then ['\\', '"'] else if c = '\\' then ['\\', '\\'] else [c]

/-- A JSON string literal: quote, escaped characters, quote. -/
def jsonQuote (s : String) : String :=
  "\"" ++ String.mk (s.toList.flatMap jsonEscapeChar) ++ "\""

/-- `JSON.stringify` of a KnowledgeNode `[term, [qualifiers...]]`:
element separator is a bare comma, no whitespace. This is the node id
used throughout `graph.ts` (`const id = JSON.stringify(node)`). -/
def stringifyNode (n : KnowledgeNode) : String :=
  "[" ++ jsonQuote n.1 ++ ",[" ++ String.intercalate "," (n.2.map jsonQuote) ++ "]]"

/-- The human label for one term, from `#graphNode`:
`this.#labelCache.has(term) ? this.#labelCache.get(term) : ''`. -/
def humanLabel (labelCache : LabelMap) (term : String) : String :=
  match mapGet labelCache term with
  | some l => l
  | none => ""

/-- The `label` array built by `#graphNode` before it is joined with
newlines: the raw terms (primary first, then qualifiers) followed by the
human labels for the same terms in the same order. -/
def graphNodeLabelList (labelCache : LabelMap) (node : KnowledgeNode) : List String :=
  let label := node.1 :: node.2
  let humanLabels := label.map (humanLabel labelCache)
  label ++ humanLabels

/-- `Array.prototype.join` with a newline separator, at the character
level so that it can be related to `splitLines`. -/
def joinLines (lines : List String) : String :=
  String.mk (List.intercalate ['\n'] (lines.map String.toList))

/-- `String.prototype.split` with a one-character newline separator, at
the character level. -/
def splitLines (s : String) : List String :=
  (s.toList.splitOn '\n').map String.mk

/-- `ConnectivityGraph.#graphNode`, with the class fields `#axons`,
`#dendrites` and `#somas` (already serialized id lists) passed in. The
role keys are set by the nested conditionals of the source: axon
membership first, inside it the dendrite overlap, then soma, then
dendrite. -/
def graphNode (labelCache : LabelMap) (axons dendrites somas : List String)
    (node : KnowledgeNode) : GraphNode :=
  let id := stringifyNode node
  let base : GraphNode := { id := id, label := joinLines (graphNodeLabelList labelCache node) }
  if axons.contains id then
    if dendrites.contains id then { base with bothAD := true }
    else { base with axon := true }
  else if somas.contains id then { base with soma := true }
  else if dendrites.contains id then { base with dendrite := true }
  else base

/-- The state of one `ConnectivityGraph` instance: the pushed node and
edge arrays, the serialized role id lists, and the Cytoscape visual
(`#cy`), present iff `showConnectivity` ran after the last clear; the
layout name stands in for the visual object. -/
structure ConnectivityGraphState where
  nodes : List GraphNode := []
  edges : List GraphEdge := []
  axons : List String := []
  dendrites : List String := []
  somas : List String := []
  cy : Option String := none
  deriving DecidableEq, Repr

/-- The loop body of `addConnectivity` over the connectivity list: for
each edge push both endpoint nodes and one edge whose id is the two node
ids joined by an underscore. -/
def addConnectivityLoop (labelCache : LabelMap) (axons dendrites somas : List String) :
    List KnowledgeEdge → ConnectivityGraphState → ConnectivityGraphState
  | [], st => st
  | e :: rest, st =>
    let e0 := graphNode labelCache axons dendrites somas e.1
    let e1 := graphNode labelCache axons dendrites somas e.2
    addConnectivityLoop labelCache axons dendrites somas rest
      { st with
        nodes := st.nodes ++ [e0, e1],
        edges := st.edges ++ [{ id := e0.id ++ "_" ++ e1.id, source := e0.id, target := e1.id }] }

/-- `ConnectivityGraph.addConnectivity` run on a fresh instance (each
caller constructs `new ConnectivityGraph(labelCache)` and calls it once).
A `none` argument models calling it with `undefined` (as `App.#showGraph`
does when the selected path is absent from `#knowledgeByPath`); the field
dereferences on it throw, which is the `Except.error` case. A record
missing `axons`, `dendrites` or `connectivity` likewise throws when the
source reads `.map` or `.length` on `undefined`. `somas` is guarded by
`'somas' in knowledge` and defaults to the empty list from the field
initializer. -/
def addConnectivity (labelCache : LabelMap) (knowledge : Option RawKnowledge) :
    Except String ConnectivityGraphState :=
  match knowledge with
  | none => .error "TypeError: cannot read properties of undefined"
  | some k =>
    match k.axons, k.dendrites with
    | some axonNodes, some dendriteNodes =>
      let axons := axonNodes.map stringifyNode
      let dendrites := dendriteNodes.map stringifyNode
      let somas := match k.somas with
        | some somaNodes => somaNodes.map stringifyNode
        | none => []
      match k.connectivity with
      | none => .error "TypeError: cannot read length of undefined"
      | some connectivity =>
        if connectivity.length ≠ 0 then
          .ok (addConnectivityLoop labelCache axons dendrites somas connectivity
            { axons := axons, dendrites := dendrites, somas := somas })
        else
          .ok { nodes := [{ id := "MISSING", label := "NO PATHS" }],
                axons := axons, dendrites := dendrites, somas := somas }
    | _, _ => .error "TypeError: cannot map undefined"

/-- `ConnectivityGraph.showConnectivity`: construct the Cytoscape visual
for the given layout (which also appends one tooltip element to the
canvas; the tooltip count is tracked at the App level). -/
def showConnectivity (st : ConnectivityGraphState) (layout : String) : ConnectivityGraphState :=
  { st with cy := some layout }

/-- `ConnectivityGraph.clearConnectivity`: destroy the visual if one
exists, else do nothing. -/
def clearConnectivity (st : ConnectivityGraphState) : ConnectivityGraphState :=
  if st.cy.isSome then { st with cy := none } else st

/-- The gateway fallback `emptyConnectivity` from `index.ts`. -/
def emptyConnectivity : RawKnowledge :=
  { connectivity := some [], axons := some [], dendrites := some [], somas := some [] }

/-- `capitalizeLabels` applied to one line: uppercase the first character
when it is an ASCII lowercase letter, as the source checks with
`label[0] >= 'a' && label[0] <= 'z'` (and `label &&` guards the empty
string). -/
def capitalizeOne (l : String) : String :=
  match l.toList with
  | [] => l
  | c :: cs => if 'a' ≤ c ∧ c ≤ 'z' then String.mk (c.toUpper :: cs) else l

/-- `capitalizeLabels` from `graph.ts`: split on newlines, capitalize
each line, rejoin. -/
def capitalizeLabels (input : String) : String :=
  joinLines ((splitLines input).map capitalizeOne)

/-- `trimLabel` from `graph.ts`: keep the second half of the label lines
(`labels.slice(labels.length/2)` — JS `slice` truncates the fractional
half toward zero exactly as `Nat` division does) and capitalize them. -/
def trimLabel (label : String) : String :=
  let labels := splitLines label
  let half := labels.length / 2
  capitalizeLabels (joinLines (labels.drop half))

/-- A JS number as produced by the coercions in `getSchemaVersion`:
NaN, the two infinities, or a finite value (a rational; the magnitudes
involved are exactly representable, so float rounding is irrelevant). -/
inductive JSNum where
  | nan : JSNum
  | posInf : JSNum
  | negInf : JSNum
  | num : ℚ → JSNum
  deriving DecidableEq, Repr

/-- A JSON-representable scalar as it can appear in the `version` field
of the schema-version response (arrays and objects, which coerce to NaN
or to their joined-text number, are not needed by the theorems and are
omitted from the model). -/
inductive JSValue where
  | null : JSValue
  | bool : Bool → JSValue
  | num : JSNum → JSValue
  | str : String → JSValue
  deriving DecidableEq, Repr

/-- `String.prototype.toLowerCase` on the ASCII range, at the character
level. -/
def jsToLower (s : String) : String :=
  String.mk (s.toList.map Char.toLower)

/-- `String.prototype.trim`: strip leading and trailing whitespace. -/
def jsTrim (s : String) : String :=
  String.mk (((s.toList.dropWhile Char.isWhitespace).reverse.dropWhile
    Char.isWhitespace).reverse)

/-- `String.prototype.startsWith`. -/
def jsStartsWith (s pre : String) : Bool :=
  pre.toList.isPrefixOf s.toList

/-- The fragment of the JS string-to-number coercion (`+s`) exercised
here: the trimmed empty string is 0, the Infinity spellings are the
infinities, an optional-sign string of decimal digits with an optional
fractional part is that decimal value; every other string (exponent or
hex forms are not produced by the theorems below) is NaN. -/
def strToNumber (s : String) : JSNum :=
  let t := jsTrim s
  if t = "" then .num 0
  else if t = "Infinity" ∨ t = "+Infinity" then .posInf
  else if t = "-Infinity" then .negInf
  else
    let (sign, digits) : ℚ × List Char :=
      match t.toList with
      | '-' :: rest => (-1, rest)
      | '+' :: rest => (1, rest)
      | cs => (1, cs)
    let intPart := digits.takeWhile Char.isDigit
    let afterInt := digits.dropWhile Char.isDigit
    let (fracPart, leftover) : List Char × List Char :=
      match afterInt with
      | '.' :: rest => (rest.takeWhile Char.isDigit, rest.dropWhile Char.isDigit)
      | other => ([], other)
    if leftover = [] ∧ digits ≠ [] ∧ (intPart ≠ [] ∨ fracPart ≠ []) then
      let iv : ℚ := intPart.foldl (fun acc c => acc * 10 + (c.toNat - 48 : ℕ)) 0
      let fv : ℚ := fracPart.foldl (fun acc c => acc * 10 + (c.toNat - 48 : ℕ)) 0
      .num (sign * (iv + fv / (10 ^ fracPart.length)))
    else .nan

/-- The JS unary-plus coercion applied to `data.version`, where `none`
is an absent field (`undefined`). -/
def toNumber (v : Option JSValue) : JSNum :=
  match v with
  | none => .nan
  | some .null => .num 0
  | some (.bool b) => .num (if b then 1 else 0)
  | some (.num n) => n
  | some (.str s) => strToNumber s

/-- The `|| 0` guard: a falsy number (NaN or zero) becomes 0. -/
def jsOrZero (n : JSNum) : JSNum :=
  if n = .nan ∨ n = .num 0 then .num 0 else n

/-- The JS `<` comparison on numbers: false whenever either side is NaN. -/
def jsLt (a b : JSNum) : Bool :=
  match a, b with
  | .nan, _ => false
  | _, .nan => false
  | .posInf, _ => false
  | .negInf, .negInf => false
  | .negInf, _ => true
  | .num _, .negInf => false
  | .num _, .posInf => true
  | .num x, .num y => decide (x < y)

/-- `App.#getSchemaVersion`. The argument models the result of
`#getJsonData`: the outer `none` is a failed fetch, a null body, or any
falsy parsed body (`data ? ... : 0`); `some vf` is a truthy body whose
`version` field is `vf` (`none` when the field is absent). The source is
`data ? (+data.version || 0) : 0`. -/
def getSchemaVersion (body : Option (Option JSValue)) : JSNum :=
  match body with
  | none => .num 0
  | some versionField => jsOrZero (toNumber versionField)

/-- `MIN_SCHEMA_VERSION = 1.3`. -/
def minSchemaVersion : JSNum := .num (13 / 10)

/-- The gate in `App.run`: `schemaVersion < MIN_SCHEMA_VERSION` routes to
the terminal no-server state. -/
def backendUnavailable (body : Option (Option JSValue)) : Bool :=
  jsLt (getSchemaVersion body) minSchemaVersion

/-- One row of the batched label query result, post JSON parsing: the
entity key and the optional `label` field of the parsed knowledge blob
(`none` when the field is absent). -/
abbrev KnowledgeRow := String × Option String

/-- `knowledge['label'] || key`: the label when present and truthy, else
the key itself. -/
def rowLabelValue (key : String) (lbl : Option String) : String :=
  match lbl with
  | some l => if l = "" then key else l
  | none => key

/-- The row loop of `App.#getCachedTermLabels`: a row is stored only when
its key differs from `last_entity`, the key of the most recently stored
row (initially null); storing updates `last_entity`. -/
def processTermRows : List KnowledgeRow → Option String → LabelMap → LabelMap
  | [], _, cache => cache
  | (key, lbl) :: rest, lastEntity, cache =>
    if lastEntity ≠ some key then
      processTermRows rest (some key) (mapSet cache key (rowLabelValue key lbl))
    else
      processTermRows rest lastEntity cache

/-- `App.#getCachedTermLabels`: when the needed-terms working set is
non-empty, issue the batched query (its rows are supplied by the
environment) and fold them into the cache; otherwise do nothing. -/
def getCachedTermLabels (labelledTerms : List String) (rows : List KnowledgeRow)
    (cache : LabelMap) : LabelMap :=
  if labelledTerms.length ≠ 0 then processTermRows rows none cache else cache

/-- `Set.prototype.add` on the insertion-ordered `#labelledTerms` set. -/
def setAdd (s : List String) (t : String) : List String :=
  if s.contains t then s else s ++ [t]

/-- `App.#cacheNodeLabels`: add the primary term and then each qualifier
of a node to the needed-terms set. -/
def cacheNodeLabels (node : KnowledgeNode) (terms : List String) : List String :=
  (node.1 :: node.2).foldl setAdd terms

/-- `App.#cacheLabels`: walk the connectivity edges, adding both endpoint
node terms. Call sites guard on the connectivity field being present, so
the `getD` default is never taken there. -/
def cacheLabels (k : RawKnowledge) (terms : List String) : List String :=
  (k.connectivity.getD []).foldl
    (fun ts e => cacheNodeLabels e.2 (cacheNodeLabels e.1 ts)) terms

/-- One dropdown option of the path selector: its `value`, its displayed
`label` attribute, its `selected` flag and its `style.display` value. -/
structure PathOption where
  value : String
  label : String
  selected : Bool
  display : String
  deriving DecidableEq, Repr

/-- One parsed row of the SCKAN path query: the raw knowledge record plus
its optional top-level `label` field; the membership test
`'connectivity' in knowledge` is `raw.connectivity.isSome`. -/
structure SCKANRecord where
  raw : RawKnowledge
  label : Option String
  deriving DecidableEq, Repr

/-- The view-controller state of `App` (`src/index.ts`): the Selection
State, the per-path knowledge map, the label machinery, the dropdown
options, the prompt, the address-bar query parameters, the dropdown size
set by the search box, and the count of tooltip elements ever created by
`showConnectivity`. Purely visual toggles (spinner, disabled flags) are
omitted. On a thrown `TypeError` (the `Except.error` cases) the handler
stops; field writes preceding the throw are not observed by anything and
are not tracked on the error path. -/
structure AppState where
  mapServer : String := ""
  source : String := ""
  path : String := ""
  layout : String := ""
  currentPath : String := ""
  sourceFromMap : Bool := false
  connectivityGraph : Option ConnectivityGraphState := none
  connectivityFromMap : Option RawKnowledge := some emptyConnectivity
  knowledgeByPath : List (String × RawKnowledge) := []
  labelledTerms : List String := []
  labelCache : LabelMap := []
  pathOptions : List PathOption := []
  promptShown : Bool := false
  urlParams : LabelMap := []
  selectorSize : Nat := 1
  tooltipsCreated : Nat := 0
  deriving DecidableEq, Repr

/-- The network environment the controller runs against: the pathways
listing of the current map (`none` when the fetch fails; each entry is a
path id with the length of its connectivity array), the per-path map
connectivity response (`none` when the fetch fails or is not ok, in
which case the gateway substitutes `emptyConnectivity`), the SCKAN path
query rows, and the batched label query keyed by the needed terms. -/
structure Env where
  pathways : Option (List (String × Nat))
  mapConnectivity : String → String → Option RawKnowledge
  sckanRows : List (String × SCKANRecord)
  labelRows : List String → List KnowledgeRow

/-- `App.#updateURL`: `url.searchParams.set(key, value)` followed by a
non-navigating history update. -/
def updateURL (s : AppState) (key value : String) : AppState :=
  { s with urlParams := mapSet s.urlParams key value }

/-- `App.#fetchMapConnectivity` with the failure fallback applied. -/
def fetchMapConnectivity (env : Env) (mapuuid pathId : String) : RawKnowledge :=
  (env.mapConnectivity mapuuid pathId).getD emptyConnectivity

/-- `App.#clearConnectivity`: tear down and drop the builder if one is
held, showing the prompt; always blank the current path. -/
def appClearConnectivity (s : AppState) : AppState :=
  match s.connectivityGraph with
  | some b =>
    let _ := clearConnectivity b
    { s with connectivityGraph := none, promptShown := true, currentPath := "" }
  | none => { s with currentPath := "" }

/-- `App.#selectPath`: when the path is a key of `#knowledgeByPath` and a
dropdown option carries it as value, select that option (in a
single-select element this deselects the others) and report true. -/
def selectPath (s : AppState) (neuronPath : String) : AppState × Bool :=
  if (mapGet s.knowledgeByPath neuronPath).isSome then
    if s.pathOptions.any (fun o => o.value = neuronPath) then
      ({ s with pathOptions :=
          s.pathOptions.map (fun o => { o with selected := o.value == neuronPath }) }, true)
    else (s, false)
  else (s, false)

/-- `App.#setPathsFromMap`: the path ids of the pathways listing whose
connectivity array is non-empty, each with an empty display label; an
absent or failed listing yields no paths. -/
def setPathsFromMap (env : Env) : List (String × String) :=
  match env.pathways with
  | some pw => (pw.filter (fun p => p.2 ≠ 0)).map (fun p => (p.1, ""))
  | none => []

/-- The apostrophe character as a string (codepoint 39), the replacement
text for `-prime` in `#setPathsFromSCKAN`. -/
def apostrophe : String := String.mk [Char.ofNat 39]

/-- `String.prototype.replace` with a plain-string pattern: replace only
the first occurrence. -/
def jsReplaceOnce (s pat rep : String) : String :=
  match s.splitOn pat with
  | [] => s
  | [_] => s
  | x :: rest => x ++ rep ++ String.intercalate pat rest

/-- The short display label computed in `#setPathsFromSCKAN`: empty when
the full label is just the entity id undecorated (drop the `ilxtr:`
prefix, undo `-prime`, hyphens to spaces), else the label, truncated with
an ellipsis at 50 characters. -/
def shortLabel (key label : String) : String :=
  let plain := String.replace (jsReplaceOnce (key.drop 6) "-prime" apostrophe) "-" " "
  if label = plain then ""
  else if label.length < 50 then label
  else (label.take 50).append "..."

/-- `App.#setPathsFromSCKAN`: keep the rows whose knowledge has a
`connectivity` key, producing (value, short label) pairs while filling
`#knowledgeByPath` and the needed-terms set. -/
def setPathsFromSCKAN (env : Env) (s : AppState) : List (String × String) × AppState :=
  env.sckanRows.foldl
    (fun acc row =>
      let key := row.1
      let r := row.2
      match r.raw.connectivity with
      | some _ =>
        let label := rowLabelValue key r.label
        (acc.1 ++ [(key, shortLabel key label)],
         { acc.2 with
            knowledgeByPath := mapSet acc.2.knowledgeByPath key r.raw,
            labelledTerms := cacheLabels r.raw acc.2.labelledTerms })
      | none => acc)
    ([], s)

/-- Two no-break spaces: the decoded `&nbsp;&nbsp;` separator inside each
generated option label attribute. -/
def nbsp2 : String := String.mk [Char.ofNat 160, Char.ofNat 160]

/-- The leading prompt option; it has no label attribute, so its DOM
`label` is its text content. -/
def promptOption : PathOption :=
  { value := "", label := "Please select path:", selected := false, display := "" }

/-- One generated path option: value, the label attribute text, and the
`selected` attribute present exactly when a path is selected and equals
this value (`this.#path && this.#path === value`). -/
def mkPathOption (path : String) (d : String × String) : PathOption :=
  { value := d.1, label := d.1 ++ nbsp2 ++ d.2,
    selected := (!(path == "")) && (path == d.1), display := "" }

/-- `App.#setPathList`: clear the per-path map and the needed-terms set,
enumerate paths from the map or from SCKAN according to the origin kind,
rebuild the dropdown options (marking the one matching the current path
selected), and resolve the needed labels. -/
def setPathList (env : Env) (s : AppState) : AppState :=
  let s1 := { s with knowledgeByPath := (([] : List (String × RawKnowledge))), labelledTerms := [] }
  let dataAndState :=
    if s1.sourceFromMap then (setPathsFromMap env, s1) else setPathsFromSCKAN env s1
  let data := dataAndState.1
  let s2 := dataAndState.2
  let opts := promptOption :: data.map (mkPathOption s2.path)
  let s3 := { s2 with
    labelCache := getCachedTermLabels s2.labelledTerms (env.labelRows s2.labelledTerms) s2.labelCache }
  { s3 with pathOptions := opts }

/-- `App.#showGraph`: with no current path just show the prompt. With a
path, look its knowledge up; for a map origin replace it by the fetched
map connectivity (falling back to `emptyConnectivity`) and, when that has
edges, resolve its labels first. Then build a fresh `ConnectivityGraph`,
add the connectivity (which can throw on an undefined record), hide the
prompt, create the visual (appending one tooltip element) and commit the
current path. -/
def appShowGraph (env : Env) (s : AppState) : Except String AppState :=
  if s.path ≠ "" then
    let connectivityInfo : Option RawKnowledge := mapGet s.knowledgeByPath s.path
    if s.sourceFromMap then
      let cfm := fetchMapConnectivity env s.source s.path
      match cfm.connectivity with
      | none => .error "TypeError: cannot read length of undefined"
      | some conn =>
        let s1 := { s with connectivityFromMap := some cfm }
        let s2 :=
          if conn.length ≠ 0 then
            let terms := cacheLabels cfm s1.labelledTerms
            { s1 with
              labelledTerms := terms,
              labelCache := getCachedTermLabels terms (env.labelRows terms) s1.labelCache }
          else s1
        match addConnectivity s2.labelCache (some cfm) with
        | .error e => .error e
        | .ok g =>
          .ok { s2 with
            connectivityGraph := some (showConnectivity g s2.layout),
            promptShown := false, currentPath := s2.path,
            tooltipsCreated := s2.tooltipsCreated + 1 }
    else
      match addConnectivity s.labelCache connectivityInfo with
      | .error e => .error e
      | .ok g =>
        .ok { s with
          connectivityGraph := some (showConnectivity g s.layout),
          promptShown := false, currentPath := s.path,
          tooltipsCreated := s.tooltipsCreated + 1 }
  else
    .ok { s with promptShown := true }

/-- The `#sourceSelector.onchange` handler in `App.run`: an empty value
does nothing; otherwise commit the new source, and per its kind (release
ids start with `sckan`) reload the path list and redisplay; only the
release branch falls back to clearing when the current path cannot be
reselected. Both branches then write the `source` URL parameter. -/
def sourceChange (env : Env) (s : AppState) (value : String) : Except String AppState :=
  if value ≠ "" then
    let s0 := { s with source := value }
    if jsStartsWith value "sckan" then
      let s1 := setPathList env { s0 with sourceFromMap := false }
      match appShowGraph env s1 with
      | .error e => .error e
      | .ok s2 =>
        let sel := selectPath s2 s2.currentPath
        let s3 := if sel.2 then sel.1 else appClearConnectivity sel.1
        .ok (updateURL s3 "source" s3.source)
    else
      let s1 := setPathList env { s0 with sourceFromMap := true }
      match appShowGraph env s1 with
      | .error e => .error e
      | .ok s2 => .ok (updateURL s2 "source" s2.source)
  else .ok s

/-- `String.prototype.includes`: the needle occurs contiguously in the
haystack. -/
def strIncludes (hay needle : String) : Bool :=
  decide (needle.toList <:+: hay.toList)

/-- `searchValue.split(/\s+/g).join('-')`: each maximal whitespace run
becomes a single hyphen (a leading or trailing run contributes the empty
piece the JS split produces there, hence a leading or trailing hyphen).
The boolean argument records whether the previous character was part of a
whitespace run. -/
def foldWSList : List Char → Bool → List Char
  | [], _ => []
  | c :: cs, prevWS =>
    if c.isWhitespace then
      if prevWS then foldWSList cs true else '-' :: foldWSList cs true
    else c :: foldWSList cs false

/-- The hyphen-folded query used as the secondary match. -/
def foldWhitespace (s : String) : String :=
  String.mk (foldWSList s.toList false)

/-- The per-option visibility computed by the `#pathSearch.oninput`
handler: `searchValue` is the already lowercased query; the option stays
visible (empty display) when the query is blank or the lowercased label
contains the query or its hyphen-folded form, else it is hidden
(`display: none`). -/
def optionDisplayStyle (label searchValue : String) : String :=
  let text := jsToLower label
  let found := strIncludes text searchValue || strIncludes text (foldWhitespace searchValue)
  if ((jsTrim searchValue).length == 0) || found then "" else "none"

/-- The `#pathSearch.oninput` handler: lowercase the query, set each
option visibility from index 1 on (the prompt option is skipped), and
grow the dropdown to 10 rows while a non-blank query is active. Nothing
else is touched. -/
def pathSearchInput (s : AppState) (query : String) : AppState :=
  let searchValue := jsToLower query
  let opts := s.pathOptions.mapIdx (fun i o =>
    if 1 ≤ i then { o with display := optionDisplayStyle o.label searchValue } else o)
  { s with pathOptions := opts,
           selectorSize := if (jsTrim searchValue).length ≠ 0 then 10 else 1 }

/-! Concrete fixtures used by witnesses and counterexamples. -/

/-- A sample node with one qualifier. -/
def nodeA : KnowledgeNode := ("a", ["q"])

/-- A sample node without qualifiers. -/
def nodeB : KnowledgeNode := ("b", [])

/-- A sample directed edge. -/
def edgeAB : KnowledgeEdge := (nodeA, nodeB)

/-- A knowledge record whose connectivity lists the same edge twice, with
`somas` absent as a map-served record may have it. -/
def dupEdgeKnowledge : RawKnowledge :=
  { connectivity := some [edgeAB, edgeAB], axons := some [nodeA],
    dendrites := some [nodeB], somas := none }

/-- A one-edge knowledge record used by the origin-switch scenarios. -/
def oneEdgeKnowledge : RawKnowledge :=
  { connectivity := some [edgeAB], axons := some [nodeA],
    dendrites := some [nodeB], somas := some [] }

/-- An environment for the origin-switch counterexample: the map lists no
pathways and every per-path connectivity fetch fails. -/
def envNoPaths : Env :=
  { pathways := some [], mapConnectivity := fun _ _ => none,
    sckanRows := [], labelRows := fun _ => [] }

/-- An environment whose map serves path `P1` with one edge. -/
def envWithP1 : Env :=
  { pathways := some [("P1", 1)],
    mapConnectivity := fun _ p => if p = "P1" then some oneEdgeKnowledge else none,
    sckanRows := [], labelRows := fun _ => [] }

/-- A controller state displaying path `P1` of a SCKAN release, with the
address bar reflecting both selections. -/
def displayingP1 : AppState :=
  { source := "sckan-2024", path := "P1", layout := "dagre", currentPath := "P1",
    sourceFromMap := false,
    connectivityGraph := some { nodes := [], edges := [], cy := some "dagre" },
    knowledgeByPath := [("P1", oneEdgeKnowledge)],
    promptShown := false,
    urlParams := [("path", "P1"), ("source", "sckan-2024")] }

/-- Label rows with a non-adjacent duplicate for term `A`, as the
source-descending ordering produces when the duplicate rows of `A` come
from sources that bracket the source of `B`. -/
def nonAdjacentRows : List KnowledgeRow :=
  [("A", some "x"), ("B", some "y"), ("A", some "z")]

/-- Label rows for three distinct terms where the two rows sharing term
`A` are adjacent under the source-descending ordering. -/
def adjacentRows : List KnowledgeRow :=
  [("A", some "x"), ("A", some "x2"), ("B", some "y"), ("C", none)]

/-- A controller state whose path dropdown holds the two options of the
search-filter scenario behind the prompt option. -/
def searchFixture : AppState :=
  { pathOptions :=
      [promptOption,
       { value := "p1", label := "Bladder neuron path", selected := false, display := "" },
       { value := "p2", label := "Heart-vagal-path", selected := false, display := "" }] }

/-- A label cache resolving the primary term of `nodeA`. -/
def fooCache : LabelMap := [("a", "Foo")]

/-- The builder state holding only the MISSING sentinel node, as built
from an empty-connectivity record on a fresh instance. -/
def missingSentinelGraph : ConnectivityGraphState :=
  { nodes := [{ id := "MISSING", label := "NO PATHS" }] }

end ConnViewer

/-! Theorems. -/

namespace ConnViewer

/-- The id of a built graph node is always the serialized knowledge node,
whatever role flags get set. -/
theorem graphNode_id (lc : LabelMap) (axons dendrites somas : List String)
    (node : KnowledgeNode) :
    (graphNode lc axons dendrites somas node).id = stringifyNode node := by
  simp only [graphNode]
  split_ifs <;> rfl

/-- Unfolding the push loop of `addConnectivity`: it appends the two
endpoint nodes per edge and one edge record per edge, in input order. -/
theorem addConnectivityLoop_spec (lc : LabelMap) (a d so : List String)
    (es : List KnowledgeEdge) (st : ConnectivityGraphState) :
    addConnectivityLoop lc a d so es st =
      { st with
        nodes := st.nodes ++ es.flatMap (fun e =>
          [graphNode lc a d so e.1, graphNode lc a d so e.2]),
        edges := st.edges ++ es.map (fun e =>
          { id := stringifyNode e.1 ++ "_" ++ stringifyNode e.2,
            source := stringifyNode e.1,
            target := stringifyNode e.2 }) } := by
  induction es generalizing st with
  | nil => simp [addConnectivityLoop]
  | cons e rest ih =>
    simp only [addConnectivityLoop, ih, List.flatMap_cons, List.map_cons, graphNode_id]
    simp [List.append_assoc]

/-- The node list built from a list of edges has twice as many entries. -/
theorem flatMap_pair_length {α β : Type} (es : List α) (f g : α → β) :
    (es.flatMap (fun e => [f e, g e])).length = 2 * es.length := by
  induction es with
  | nil => simp
  | cons e rest ih => simp [ih]; omega

/-- C1 counterexample: calling `addConnectivity` with a missing
(undefined) knowledge record does not produce the MISSING sentinel — it
throws, because the source immediately reads `knowledge.axons`. This
refutes the never-throws part of the claim for missing input. -/
theorem addConnectivity_undefined_throws :
    addConnectivity [] none = Except.error "TypeError: cannot read properties of undefined" := rfl

/-- C1 (amended): for every knowledge record that is present and carries
its `axons`, `dendrites` and `connectivity` fields with an empty
connectivity list — the gateway's `emptyConnectivity` fallback included —
`addConnectivity` returns (never throws) a graph of exactly one sentinel
node with id `MISSING` and label `NO PATHS`, and zero edges. A missing
record, or one lacking those fields, throws a TypeError instead. -/
theorem addConnectivity_empty_sentinel (labelCache : LabelMap) (k : RawKnowledge)
    (axs ds : List KnowledgeNode)
    (hc : k.connectivity = some []) (ha : k.axons = some axs) (hd : k.dendrites = some ds) :
    addConnectivity labelCache (some k) =
      .ok { nodes := [{ id := "MISSING", label := "NO PATHS" }],
            edges := [],
            axons := axs.map stringifyNode,
            dendrites := ds.map stringifyNode,
            somas := (k.somas.getD []).map stringifyNode,
            cy := none } := by
  obtain ⟨c, a, d, so⟩ := k
  simp only at hc ha hd
  subst hc ha hd
  cases so <;> simp [addConnectivity]

/-- C1 witness: the gateway fallback record yields exactly the sentinel
graph. -/
theorem addConnectivity_empty_sentinel_witness :
    addConnectivity [] (some emptyConnectivity) =
      .ok { nodes := [{ id := "MISSING", label := "NO PATHS" }],
            edges := [],
            axons := ([] : List KnowledgeNode).map stringifyNode,
            dendrites := ([] : List KnowledgeNode).map stringifyNode,
            somas := (emptyConnectivity.somas.getD []).map stringifyNode,
            cy := none } :=
  addConnectivity_empty_sentinel [] emptyConnectivity [] [] rfl rfl rfl

/-- With a non-empty connectivity list and the required fields present,
`addConnectivity` runs the push loop from the fresh instance state. -/
theorem addConnectivity_nonempty_eq (labelCache : LabelMap) (k : RawKnowledge)
    (es : List KnowledgeEdge) (axs ds : List KnowledgeNode)
    (hc : k.connectivity = some es) (hne : es ≠ [])
    (ha : k.axons = some axs) (hd : k.dendrites = some ds) :
    addConnectivity labelCache (some k) =
      .ok (addConnectivityLoop labelCache (axs.map stringifyNode) (ds.map stringifyNode)
        ((k.somas.getD []).map stringifyNode) es
        (ConnectivityGraphState.mk [] [] (axs.map stringifyNode) (ds.map stringifyNode)
          ((k.somas.getD []).map stringifyNode) none)) := by
  obtain ⟨c, a, d, so⟩ := k
  have hc2 : c = some es := hc
  have ha2 : a = some axs := ha
  have hd2 : d = some ds := hd
  subst hc2 ha2 hd2
  have hlen : es.length ≠ 0 := fun h => hne (List.length_eq_zero.mp h)
  cases so <;> simp [addConnectivity, hlen]

/-- C2: for a knowledge record with a non-empty connectivity list of n
edges, `addConnectivity` returns a node sequence of length exactly 2n and
an edge sequence of length exactly n, both in input order — the nodes are
the per-edge endpoint conversions in traversal order, and the edge at
each input position has id sourceId `_` targetId. Duplicate input edges
pass through `List.map`, so they yield positionally duplicate edge
records, never merged. -/
theorem addConnectivity_nonempty_structure (labelCache : LabelMap) (k : RawKnowledge)
    (es : List KnowledgeEdge) (axs ds : List KnowledgeNode)
    (hc : k.connectivity = some es) (hne : es ≠ [])
    (ha : k.axons = some axs) (hd : k.dendrites = some ds) :
    ∃ st, addConnectivity labelCache (some k) = .ok st ∧
      st.nodes = es.flatMap (fun e =>
        [graphNode labelCache (axs.map stringifyNode) (ds.map stringifyNode)
          ((k.somas.getD []).map stringifyNode) e.1,
         graphNode labelCache (axs.map stringifyNode) (ds.map stringifyNode)
          ((k.somas.getD []).map stringifyNode) e.2]) ∧
      st.edges = es.map (fun e =>
        { id := stringifyNode e.1 ++ "_" ++ stringifyNode e.2,
          source := stringifyNode e.1,
          target := stringifyNode e.2 }) ∧
      st.nodes.length = 2 * es.length ∧
      st.edges.length = es.length := by
  refine ⟨_, addConnectivity_nonempty_eq labelCache k es axs ds hc hne ha hd, ?_, ?_, ?_, ?_⟩
  · rw [addConnectivityLoop_spec]
    simp
  · rw [addConnectivityLoop_spec]
    simp
  · rw [addConnectivityLoop_spec]
    simp only [List.nil_append]
    exact flatMap_pair_length es _ _
  · rw [addConnectivityLoop_spec]
    simp

/-- C2 witness: the duplicated one-edge record builds four nodes and two
identical edges at distinct positions. -/
theorem addConnectivity_nonempty_structure_witness :
    ∃ st, addConnectivity [] (some dupEdgeKnowledge) = .ok st ∧
      st.nodes = [edgeAB, edgeAB].flatMap (fun e =>
        [graphNode [] ([nodeA].map stringifyNode) ([nodeB].map stringifyNode)
          ((dupEdgeKnowledge.somas.getD []).map stringifyNode) e.1,
         graphNode [] ([nodeA].map stringifyNode) ([nodeB].map stringifyNode)
          ((dupEdgeKnowledge.somas.getD []).map stringifyNode) e.2]) ∧
      st.edges = [edgeAB, edgeAB].map (fun e =>
        { id := stringifyNode e.1 ++ "_" ++ stringifyNode e.2,
          source := stringifyNode e.1,
          target := stringifyNode e.2 }) ∧
      st.nodes.length = 2 * [edgeAB, edgeAB].length ∧
      st.edges.length = [edgeAB, edgeAB].length :=
  addConnectivity_nonempty_structure [] dupEdgeKnowledge [edgeAB, edgeAB] [nodeA] [nodeB]
    rfl (by decide) rfl rfl

/-- C3: role classification of a converted node follows the nested
conditionals of the source with the first match winning — membership in
both the axon and dendrite id sets yields only the `both-a-d` flag (the
role the spec names both-axon-dendrite), and this overlap check runs
before the soma check, so such a node is never classified as plain axon,
dendrite, or soma, regardless of soma membership; otherwise axon beats
soma beats dendrite, and a node in none of the sets carries no flag. -/
theorem graphNode_role_precedence (lc : LabelMap) (axons dendrites somas : List String)
    (node : KnowledgeNode) :
    (stringifyNode node ∈ axons → stringifyNode node ∈ dendrites →
      (graphNode lc axons dendrites somas node).bothAD = true ∧
      (graphNode lc axons dendrites somas node).axon = false ∧
      (graphNode lc axons dendrites somas node).dendrite = false ∧
      (graphNode lc axons dendrites somas node).soma = false) ∧
    (stringifyNode node ∈ axons → stringifyNode node ∉ dendrites →
      (graphNode lc axons dendrites somas node).axon = true ∧
      (graphNode lc axons dendrites somas node).bothAD = false ∧
      (graphNode lc axons dendrites somas node).dendrite = false ∧
      (graphNode lc axons dendrites somas node).soma = false) ∧
    (stringifyNode node ∉ axons → stringifyNode node ∈ somas →
      (graphNode lc axons dendrites somas node).soma = true ∧
      (graphNode lc axons dendrites somas node).axon = false ∧
      (graphNode lc axons dendrites somas node).dendrite = false ∧
      (graphNode lc axons dendrites somas node).bothAD = false) ∧
    (stringifyNode node ∉ axons → stringifyNode node ∉ somas →
      stringifyNode node ∈ dendrites →
      (graphNode lc axons dendrites somas node).dendrite = true ∧
      (graphNode lc axons dendrites somas node).axon = false ∧
      (graphNode lc axons dendrites somas node).soma = false ∧
      (graphNode lc axons dendrites somas node).bothAD = false) ∧
    (stringifyNode node ∉ axons → stringifyNode node ∉ somas →
      stringifyNode node ∉ dendrites →
      (graphNode lc axons dendrites somas node).axon = false ∧
      (graphNode lc axons dendrites somas node).dendrite = false ∧
      (graphNode lc axons dendrites somas node).soma = false ∧
      (graphNode lc axons dendrites somas node).bothAD = false) := by
  unfold graphNode
  refine ⟨?_, ?_, ?_, ?_, ?_⟩ <;> intros <;> simp_all [List.elem_iff]

/-- C3 witness: a node in both the axon and dendrite sets — and even in
the soma set — shows only the both-axon-dendrite flag. -/
theorem graphNode_role_precedence_witness :
    (graphNode [] [stringifyNode nodeA] [stringifyNode nodeA] [stringifyNode nodeA]
      nodeA).bothAD = true ∧
    (graphNode [] [stringifyNode nodeA] [stringifyNode nodeA] [stringifyNode nodeA]
      nodeA).axon = false ∧
    (graphNode [] [stringifyNode nodeA] [stringifyNode nodeA] [stringifyNode nodeA]
      nodeA).dendrite = false ∧
    (graphNode [] [stringifyNode nodeA] [stringifyNode nodeA] [stringifyNode nodeA]
      nodeA).soma = false :=
  (graphNode_role_precedence [] [stringifyNode nodeA] [stringifyNode nodeA]
    [stringifyNode nodeA] nodeA).1 (by simp) (by simp)

/-- The label of a built graph node is always the newline-joined label
list, whatever role flags get set. -/
theorem graphNode_label (lc : LabelMap) (axons dendrites somas : List String)
    (node : KnowledgeNode) :
    (graphNode lc axons dendrites somas node).label =
      joinLines (graphNodeLabelList lc node) := by
  simp only [graphNode]
  split_ifs <;> rfl

/-- The label list has twice as many entries as the node has terms. -/
theorem graphNodeLabelList_length (lc : LabelMap) (node : KnowledgeNode) :
    (graphNodeLabelList lc node).length = 2 * (node.1 :: node.2).length := by
  simp [graphNodeLabelList]
  omega

/-- C7: the graph node label is the label list joined by newlines, and
for every position i of the node's term sequence, the entry of the label
list at the mirrored position in its second half is the human label of
the term at i — which equals the cached string when the Label Cache
resolves the term, and the empty string (a total value, never an
absent one and never a thrown error) when it does not. -/
theorem graphNode_label_roundtrip (cache : LabelMap)
    (axons dendrites somas : List String) (node : KnowledgeNode)
    (i : Nat) (h : i < (node.1 :: node.2).length) :
    (graphNode cache axons dendrites somas node).label =
      joinLines (graphNodeLabelList cache node) ∧
    (graphNodeLabelList cache node).get
        ⟨(node.1 :: node.2).length + i, by rw [graphNodeLabelList_length]; omega⟩ =
      humanLabel cache ((node.1 :: node.2).get ⟨i, h⟩) ∧
    (∀ l, mapGet cache ((node.1 :: node.2).get ⟨i, h⟩) = some l →
      humanLabel cache ((node.1 :: node.2).get ⟨i, h⟩) = l) ∧
    (mapGet cache ((node.1 :: node.2).get ⟨i, h⟩) = none →
      humanLabel cache ((node.1 :: node.2).get ⟨i, h⟩) = "") := by
  refine ⟨graphNode_label cache axons dendrites somas node, ?_, ?_, ?_⟩
  · simp only [graphNodeLabelList, List.get_eq_getElem]
    rw [List.getElem_append_right (by simp)]
    simp only [List.length_cons, add_tsub_cancel_left]
    exact List.getElem_map (humanLabel cache)
  · intro l hl
    simp only [List.get_eq_getElem] at hl
    simp [humanLabel, hl]
  · intro hl
    simp only [List.get_eq_getElem] at hl
    simp [humanLabel, hl]

/-- C7 witness: with term `a` resolved to `Foo` and qualifier `q`
unresolved, the second half of the label list reads `Foo` then the empty
string. -/
theorem graphNode_label_roundtrip_witness :
    ((graphNode fooCache [] [] [] nodeA).label =
      joinLines (graphNodeLabelList fooCache nodeA) ∧
    (graphNodeLabelList fooCache nodeA).get ⟨2 + 0, by decide⟩ =
      humanLabel fooCache ((nodeA.1 :: nodeA.2).get ⟨0, by decide⟩) ∧
    (∀ l, mapGet fooCache ((nodeA.1 :: nodeA.2).get ⟨0, by decide⟩) = some l →
      humanLabel fooCache ((nodeA.1 :: nodeA.2).get ⟨0, by decide⟩) = l) ∧
    (mapGet fooCache ((nodeA.1 :: nodeA.2).get ⟨0, by decide⟩) = none →
      humanLabel fooCache ((nodeA.1 :: nodeA.2).get ⟨0, by decide⟩) = "")) ∧
    humanLabel fooCache "a" = "Foo" ∧ humanLabel fooCache "q" = "" :=
  ⟨graphNode_label_roundtrip fooCache [] [] [] nodeA 0 (by decide), rfl, rfl⟩

/-- C8: graph-clear is idempotent at both levels — tearing down an
already-cleared `ConnectivityGraph` and invoking the controller clear on
an already-cleared `App` leave the state exactly as a single clear does
(both are total functions, so no exception), and a clear never creates a
tooltip element (only `showConnectivity` increments that count). -/
theorem clearConnectivity_idempotent :
    (∀ st : ConnectivityGraphState,
      clearConnectivity (clearConnectivity st) = clearConnectivity st) ∧
    (∀ s : AppState,
      appClearConnectivity (appClearConnectivity s) = appClearConnectivity s) ∧
    (∀ s : AppState,
      (appClearConnectivity s).tooltipsCreated = s.tooltipsCreated) := by
  refine ⟨?_, ?_, ?_⟩
  · intro st
    cases hc : st.cy <;> simp [clearConnectivity, hc]
  · intro s
    cases hg : s.connectivityGraph <;> simp [appClearConnectivity, hg]
  · intro s
    cases hg : s.connectivityGraph <;> simp [appClearConnectivity, hg]

/-- C4 counterexample: when the two rows for term `A` are separated by a
row for `B` (as the source-descending ordering produces when the sources
of the `A` rows bracket the source of the `B` row), the later duplicate
is NOT ignored: the cache ends holding the later row's value `z`, not the
first row's value `x` as the claim states. -/
theorem getCachedTermLabels_nonadjacent_overwrites :
    mapGet (getCachedTermLabels ["A", "B", "C"] nonAdjacentRows []) "A" = some "z" ∧
    ("z" : String) ≠ "x" := by
  refine ⟨rfl, by decide⟩

/-- C4 (amended): the row loop ignores a duplicate row for a term only
when it immediately follows a row for the same term — dropping the
second of two consecutive equal-key rows never changes the result; a
duplicate separated by a different term's row is stored again and
overwrites. In the three-distinct-terms scenario with the two rows of the
shared term adjacent, the cache ends with exactly one entry for that
term, holding the first row's value, and a term whose knowledge has no
label falls back to the term itself. -/
theorem processTermRows_consecutive_dedup :
    (∀ (k : String) (j1 j2 : Option String) (rest : List KnowledgeRow)
       (last : Option String) (cache : LabelMap),
       processTermRows ((k, j1) :: (k, j2) :: rest) last cache =
       processTermRows ((k, j1) :: rest) last cache) ∧
    (mapGet (getCachedTermLabels ["A", "B", "C"] adjacentRows []) "A" = some "x" ∧
     ((getCachedTermLabels ["A", "B", "C"] adjacentRows []).filter
        (fun p => p.1 = "A")).length = 1 ∧
     mapGet (getCachedTermLabels ["A", "B", "C"] adjacentRows []) "C" = some "C") := by
  refine ⟨?_, rfl, by decide, rfl⟩
  intro k j1 j2 rest last cache
  by_cases hl : last = some k <;>
    simp [processTermRows, hl]

/-- C6 counterexample: the claim's example query `heart path` folds to
`heart-path`, which is not a substring of `heart-vagal-path`, so the
search handler hides the `Heart-vagal-path` option instead of keeping it
visible as the claim states. -/
theorem pathSearch_heart_path_hidden :
    ((pathSearchInput searchFixture "heart path").pathOptions.map
      (fun o => o.display)) = ["", "none", "none"] := by
  decide

/-- C6 (amended): the search handler mutates only option visibility and
the dropdown size — the Selection State (path, source, layout, current
path), the URL parameters and the displayed graph are untouched. From
index 1 on (the prompt option is exempt and always left alone), an option
is visible iff the query is blank, or its lowercased label contains the
lowercased query, or contains the query with each whitespace run folded
to a hyphen. `vagal` keeps only `Heart-vagal-path`; `heart vagal` also
matches it by hyphen folding; but `heart path` folds to `heart-path` and
matches neither option, hiding both. -/
theorem pathSearch_filter :
    (∀ (s : AppState) (q : String),
      (pathSearchInput s q).path = s.path ∧
      (pathSearchInput s q).source = s.source ∧
      (pathSearchInput s q).layout = s.layout ∧
      (pathSearchInput s q).currentPath = s.currentPath ∧
      (pathSearchInput s q).urlParams = s.urlParams ∧
      (pathSearchInput s q).connectivityGraph = s.connectivityGraph) ∧
    (∀ label searchValue : String,
      optionDisplayStyle label searchValue = "" ↔
      (jsTrim searchValue = "" ∨ strIncludes (jsToLower label) searchValue = true ∨
       strIncludes (jsToLower label) (foldWhitespace searchValue) = true)) ∧
    (∀ label searchValue : String,
      optionDisplayStyle label searchValue = "" ∨
      optionDisplayStyle label searchValue = "none") ∧
    ((pathSearchInput searchFixture "vagal").pathOptions.map
      (fun o => o.display) = ["", "none", ""]) ∧
    ((pathSearchInput searchFixture "heart vagal").pathOptions.map
      (fun o => o.display) = ["", "none", ""]) := by
  refine ⟨?_, ?_, ?_, by decide, by decide⟩
  · intro s q
    simp [pathSearchInput]
  · intro label searchValue
    have hlen : ((jsTrim searchValue).length == 0) = true ↔ jsTrim searchValue = "" := by
      rcases hs : jsTrim searchValue with ⟨data⟩
      simp only [beq_iff_eq, String.length]
      constructor
      · intro h
        have hd : data = [] := List.length_eq_zero.mp h
        subst hd
        rfl
      · intro h
        have hd : data = [] := congrArg String.data h
        simp [hd]
    simp only [optionDisplayStyle]
    split_ifs with hcond
    · simp only [true_iff]
      rcases Bool.or_eq_true_iff.mp hcond with hb | hf
      · exact Or.inl (hlen.mp hb)
      · rcases Bool.or_eq_true_iff.mp hf with h1 | h2
        · exact Or.inr (Or.inl h1)
        · exact Or.inr (Or.inr h2)
    · simp only [Bool.or_eq_true_iff, not_or] at hcond
      constructor
      · intro hfalse
        exact absurd hfalse (by decide)
      · intro hor
        rcases hor with hb | h1 | h2
        · exact absurd (hlen.mpr hb) hcond.1
        · exact absurd h1 hcond.2.1
        · exact absurd h2 hcond.2.2
  · intro label searchValue
    simp only [optionDisplayStyle]
    split_ifs <;> simp

/-- C10 counterexample: a backend response whose version field is the
JSON string `Infinity` coerces to a non-finite nonzero number, which the
`|| 0` guard does not catch — `getSchemaVersion` returns positive
infinity, not 0 as the claim requires for values that do not coerce to a
finite non-zero number, and `Infinity < 1.3` is false, so this backend is
NOT routed to the unavailable state. -/
theorem getSchemaVersion_infinity_passes :
    getSchemaVersion (some (some (JSValue.str "Infinity"))) = JSNum.posInf ∧
    backendUnavailable (some (some (JSValue.str "Infinity"))) = false := by
  exact ⟨rfl, rfl⟩

/-- C10 (amended): `getSchemaVersion` is total and never returns NaN; it
returns 0 whenever the fetch fails or the JSON body is null or falsy,
whenever the version field is absent (the `some none` case), and whenever
the version value coerces to NaN or to 0 — and every response on which it
returns 0 is below the 1.3 minimum and routed to the unavailable state. A
version coercing to a nonzero non-NaN number (non-finite included) is
returned unchanged. -/
theorem getSchemaVersion_total :
    (∀ body, getSchemaVersion body ≠ JSNum.nan) ∧
    (getSchemaVersion none = JSNum.num 0) ∧
    (getSchemaVersion (some none) = JSNum.num 0) ∧
    (∀ vf, (toNumber vf = JSNum.nan ∨ toNumber vf = JSNum.num 0) →
      getSchemaVersion (some vf) = JSNum.num 0) ∧
    (∀ body, getSchemaVersion body = JSNum.num 0 → backendUnavailable body = true) ∧
    (∀ vf n, toNumber vf = n → n ≠ JSNum.nan → n ≠ JSNum.num 0 →
      getSchemaVersion (some vf) = n) := by
  refine ⟨?_, rfl, ?_, ?_, ?_, ?_⟩
  · intro body
    match body with
    | none => simp [getSchemaVersion]
    | some vf =>
      simp only [getSchemaVersion, jsOrZero]
      split_ifs <;> simp_all
  · simp [getSchemaVersion, toNumber, jsOrZero]
  · intro vf hvf
    rcases hvf with h | h <;> simp [getSchemaVersion, jsOrZero, h]
  · intro body h0
    simp only [backendUnavailable, h0, minSchemaVersion, jsLt]
    norm_num
  · intro vf n hvf hnan hzero
    simp [getSchemaVersion, jsOrZero, hvf, hnan, hzero]

/-- C10 witness: a false version field coerces to 0, yields 0, and is
routed to the unavailable state; a finite numeric version passes through
unchanged. -/
theorem getSchemaVersion_total_witness :
    getSchemaVersion (some (some (JSValue.bool false))) = JSNum.num 0 ∧
    backendUnavailable (some (some (JSValue.bool false))) = true ∧
    getSchemaVersion (some (some (JSValue.num (JSNum.num 2)))) = JSNum.num 2 :=
  ⟨getSchemaVersion_total.2.2.2.1 (some (JSValue.bool false)) (Or.inr (by decide)),
   getSchemaVersion_total.2.2.2.2.1 (some (some (JSValue.bool false)))
     (getSchemaVersion_total.2.2.2.1 (some (JSValue.bool false)) (Or.inr (by decide))),
   getSchemaVersion_total.2.2.2.2.2 (some (JSValue.num (JSNum.num 2))) (JSNum.num 2)
     rfl (by decide) (by decide)⟩

/-- Splitting on newlines undoes joining with newlines, for a non-empty
list of newline-free pieces. -/
theorem splitLines_joinLines (xs : List String) (hne : xs ≠ [])
    (h : ∀ x ∈ xs, '\n' ∉ x.toList) : splitLines (joinLines xs) = xs := by
  unfold splitLines joinLines
  have hx : ∀ l ∈ xs.map String.toList, '\n' ∉ l := by
    intro l hl
    rcases List.mem_map.mp hl with ⟨x, hxm, rfl⟩
    exact h x hxm
  have hls : xs.map String.toList ≠ [] := by
    simp [hne]
  rw [show (String.mk (List.intercalate ['\n'] (xs.map String.toList))).toList
      = List.intercalate ['\n'] (xs.map String.toList) from rfl]
  rw [List.splitOn_intercalate (xs.map String.toList) '\n' hx hls]
  rw [List.map_map]
  exact List.map_id'' (fun s => rfl) xs

/-- C9: the label of a built graph node splits on newlines into exactly
2 x (1 + qualifier count) lines — the first half the raw terms in order,
the second half their resolved display strings in the same order — so
dropping the first half at the midpoint, which is what the presenter
`trimLabel` does, yields exactly the human labels (then capitalized).
Holds whenever the terms and their cached labels are newline-free, which
the newline-joined encoding assumes. -/
theorem label_lines_midpoint (cache : LabelMap) (axons dendrites somas : List String)
    (node : KnowledgeNode)
    (hterm : ∀ t ∈ node.1 :: node.2, '\n' ∉ t.toList)
    (hres : ∀ t ∈ node.1 :: node.2, '\n' ∉ (humanLabel cache t).toList) :
    splitLines (graphNode cache axons dendrites somas node).label =
      (node.1 :: node.2) ++ (node.1 :: node.2).map (humanLabel cache) ∧
    (splitLines (graphNode cache axons dendrites somas node).label).length =
      2 * (node.1 :: node.2).length ∧
    (splitLines (graphNode cache axons dendrites somas node).label).take
      (node.1 :: node.2).length = node.1 :: node.2 ∧
    (splitLines (graphNode cache axons dendrites somas node).label).drop
      (node.1 :: node.2).length = (node.1 :: node.2).map (humanLabel cache) ∧
    trimLabel (graphNode cache axons dendrites somas node).label =
      capitalizeLabels (joinLines ((node.1 :: node.2).map (humanLabel cache))) := by
  have hsplit : splitLines (graphNode cache axons dendrites somas node).label =
      (node.1 :: node.2) ++ (node.1 :: node.2).map (humanLabel cache) := by
    rw [graphNode_label]
    rw [show graphNodeLabelList cache node =
        (node.1 :: node.2) ++ (node.1 :: node.2).map (humanLabel cache) from rfl]
    apply splitLines_joinLines
    · simp
    · intro x hx
      rcases List.mem_append.mp hx with hx1 | hx2
      · exact hterm x hx1
      · rcases List.mem_map.mp hx2 with ⟨t, htm, rfl⟩
        exact hres t htm
  have hhalf : ((node.1 :: node.2) ++ (node.1 :: node.2).map (humanLabel cache)).length / 2 =
      (node.1 :: node.2).length := by
    simp
    omega
  refine ⟨hsplit, ?_, ?_, ?_, ?_⟩
  · rw [hsplit]
    simp
    omega
  · rw [hsplit]
    exact List.take_left (node.1 :: node.2) ((node.1 :: node.2).map (humanLabel cache))
  · rw [hsplit]
    exact List.drop_left (node.1 :: node.2) ((node.1 :: node.2).map (humanLabel cache))
  · show capitalizeLabels (joinLines
        ((splitLines (graphNode cache axons dendrites somas node).label).drop
          ((splitLines (graphNode cache axons dendrites somas node).label).length / 2))) =
      capitalizeLabels (joinLines ((node.1 :: node.2).map (humanLabel cache)))
    rw [hsplit, hhalf,
      List.drop_left (node.1 :: node.2) ((node.1 :: node.2).map (humanLabel cache))]

/-- C9 witness: for the node with primary `a` resolved to `Foo` and
unresolved qualifier `q`, the label splits into 4 lines, the midpoint
drop keeps exactly `Foo` and the empty line, and `trimLabel` yields their
capitalized join. -/
theorem label_lines_midpoint_witness :
    splitLines (graphNode fooCache [] [] [] nodeA).label =
      (nodeA.1 :: nodeA.2) ++ (nodeA.1 :: nodeA.2).map (humanLabel fooCache) ∧
    (splitLines (graphNode fooCache [] [] [] nodeA).label).length =
      2 * (nodeA.1 :: nodeA.2).length ∧
    (splitLines (graphNode fooCache [] [] [] nodeA).label).take
      (nodeA.1 :: nodeA.2).length = nodeA.1 :: nodeA.2 ∧
    (splitLines (graphNode fooCache [] [] [] nodeA).label).drop
      (nodeA.1 :: nodeA.2).length = (nodeA.1 :: nodeA.2).map (humanLabel fooCache) ∧
    trimLabel (graphNode fooCache [] [] [] nodeA).label =
      capitalizeLabels (joinLines ((nodeA.1 :: nodeA.2).map (humanLabel fooCache))) :=
  label_lines_midpoint fooCache [] [] [] nodeA (by decide) (by decide)

/-- Replacing the value stored under one key leaves lookups of any other
key unchanged. -/
theorem find?_replace_ne {α : Type} (m : List (String × α)) (k k2 : String) (v : α)
    (h : k ≠ k2) :
    List.find? (fun p => decide (p.1 = k2)) (m.map (fun p => if p.1 = k then (k, v) else p)) =
    List.find? (fun p => decide (p.1 = k2)) m := by
  induction m with
  | nil => rfl
  | cons p rest ih =>
    by_cases hp : p.1 = k
    · rw [List.map_cons, if_pos hp]
      rw [List.find?_cons_of_neg _ (by simp [h]),
          List.find?_cons_of_neg _ (by simp [hp, h])]
      exact ih
    · rw [List.map_cons, if_neg hp]
      by_cases hp2 : p.1 = k2
      · rw [List.find?_cons_of_pos _ (by simp [hp2]),
            List.find?_cons_of_pos _ (by simp [hp2])]
      · rw [List.find?_cons_of_neg _ (by simp [hp2]),
            List.find?_cons_of_neg _ (by simp [hp2])]
        exact ih

/-- `mapSet` at one key does not disturb `mapGet` at a different key. -/
theorem mapGet_mapSet_ne {α : Type} (m : List (String × α)) (k k2 : String) (v : α)
    (h : k ≠ k2) : mapGet (mapSet m k v) k2 = mapGet m k2 := by
  unfold mapSet mapGet
  split
  · rw [find?_replace_ne m k k2 v h]
  · rw [List.find?_append]
    rw [show List.find? (fun p => decide (p.1 = k2)) [(k, v)] = none from by simp [h]]
    cases List.find? (fun p => decide (p.1 = k2)) m <;> rfl

/-- `setPathList` for a map-backed origin: the per-path knowledge map and
the needed-terms set are cleared (and stay empty, so no label query
fires), and the dropdown is rebuilt from the map pathways. -/
theorem setPathList_map (env : Env) (s : AppState) (hm : s.sourceFromMap = true) :
    setPathList env s = { s with
      knowledgeByPath := [], labelledTerms := [],
      pathOptions := promptOption :: (setPathsFromMap env).map (mkPathOption s.path) } := by
  simp [setPathList, hm, getCachedTermLabels]

/-- `appShowGraph` for a map-backed origin whose per-path fetch fails
(or the path is unknown to the map): the gateway fallback is the empty
connectivity, so the MISSING sentinel graph is built and shown, the
prompt is hidden, and the selected path is committed unchanged. -/
theorem appShowGraph_map_missing (env : Env) (s : AppState)
    (hm : s.sourceFromMap = true) (hp : s.path ≠ "")
    (hf : env.mapConnectivity s.source s.path = none) :
    appShowGraph env s = .ok { s with
      connectivityFromMap := some emptyConnectivity,
      connectivityGraph := some { missingSentinelGraph with cy := some s.layout },
      promptShown := false, currentPath := s.path,
      tooltipsCreated := s.tooltipsCreated + 1 } := by
  simp [appShowGraph, hm, hp, hf, fetchMapConnectivity, emptyConnectivity,
    addConnectivity, showConnectivity, missingSentinelGraph]

/-- The full origin-switch handler for a map origin that does not know
the selected path: the resulting state displays the MISSING sentinel
graph, hides the prompt, keeps the path, and only rewrites the source
URL parameter. -/
theorem sourceChange_map_absent (env : Env) (s : AppState) (v : String)
    (hv : v ≠ "") (hn : jsStartsWith v "sckan" = false) (hp : s.path ≠ "")
    (hf : env.mapConnectivity v s.path = none) :
    sourceChange env s v = .ok { s with
      source := v, sourceFromMap := true,
      knowledgeByPath := [], labelledTerms := [],
      pathOptions := promptOption :: (setPathsFromMap env).map (mkPathOption s.path),
      connectivityFromMap := some emptyConnectivity,
      connectivityGraph := some { missingSentinelGraph with cy := some s.layout },
      promptShown := false, currentPath := s.path,
      tooltipsCreated := s.tooltipsCreated + 1,
      urlParams := mapSet s.urlParams "source" v } := by
  simp only [sourceChange, if_pos hv, hn, Bool.false_eq_true, if_false]
  simp [setPathList_map, appShowGraph_map_missing, hp, hf, updateURL]

/-- Whenever `appShowGraph` returns normally with a path selected, it has
hidden the prompt, committed the current path, and created a visual --
and it never touches the path, source, dropdown options or URL. -/
theorem appShowGraph_ok_fields (env : Env) (s s2 : AppState)
    (h : appShowGraph env s = .ok s2) (hp : s.path ≠ "") :
    s2.promptShown = false ∧ s2.currentPath = s.path ∧ s2.path = s.path ∧
    s2.source = s.source ∧ s2.pathOptions = s.pathOptions ∧
    s2.urlParams = s.urlParams ∧ s2.connectivityGraph.isSome = true := by
  unfold appShowGraph at h
  rw [if_pos hp] at h
  dsimp only at h
  by_cases hm : s.sourceFromMap = true
  · rw [if_pos hm] at h
    split at h
    · cases h
    · rename_i conn hconn
      split at h
      · cases h
      · injection h with h2
        subst h2
        by_cases hz : conn = [] <;> simp [hz, showConnectivity]
  · rw [if_neg hm] at h
    split at h
    · cases h
    · injection h with h2
      subst h2
      simp [showConnectivity]

/-- `appShowGraph` for a map-backed origin whose per-path fetch yields a
well-formed non-empty connectivity record returns normally. -/
theorem appShowGraph_map_present_ok (env : Env) (s : AppState) (k : RawKnowledge)
    (es : List KnowledgeEdge) (axs ds : List KnowledgeNode)
    (hm : s.sourceFromMap = true) (hp : s.path ≠ "")
    (hf : env.mapConnectivity s.source s.path = some k)
    (hc : k.connectivity = some es) (hne : es ≠ [])
    (ha : k.axons = some axs) (hd : k.dendrites = some ds) :
    ∃ s2, appShowGraph env s = .ok s2 := by
  have hlen : es.length ≠ 0 := fun h => hne (List.length_eq_zero.mp h)
  have hcfm : fetchMapConnectivity env s.source s.path = k := by
    simp [fetchMapConnectivity, hf]
  simp only [appShowGraph, if_pos hp, hm, if_true, hcfm, hc]
  rw [addConnectivity_nonempty_eq _ k es axs ds hc hne ha hd]
  exact ⟨_, rfl⟩

/-- After an in-place replace at a present key, the find at that key
yields the new pair. -/
theorem find?_replace_eq {α : Type} (m : List (String × α)) (k : String) (v : α)
    (hany : (m.any (fun p => p.1 = k)) = true) :
    List.find? (fun p => decide (p.1 = k)) (m.map (fun p => if p.1 = k then (k, v) else p)) =
    some (k, v) := by
  induction m with
  | nil => simp at hany
  | cons p rest ih =>
    by_cases hp : p.1 = k
    · rw [List.map_cons, if_pos hp]
      exact List.find?_cons_of_pos _ (by simp)
    · rw [List.map_cons, if_neg hp]
      rw [List.find?_cons_of_neg _ (by simp [hp])]
      exact ih (by simpa [hp] using hany)

/-- `mapGet` after `mapSet` at the same key yields the new value. -/
theorem mapGet_mapSet_eq {α : Type} (m : List (String × α)) (k : String) (v : α) :
    mapGet (mapSet m k v) k = some v := by
  unfold mapSet mapGet
  split
  · rename_i hany
    rw [find?_replace_eq m k v hany]
    rfl
  · rename_i hany
    rw [List.find?_append]
    rw [List.find?_eq_none.mpr ?none]
    · simp
    · intro p hmem
      simp only [Bool.not_eq_true, decide_eq_false_iff_not]
      intro hpk
      exact hany (List.any_eq_true.mpr ⟨p, hmem, by simp [hpk]⟩)

/-- The full origin-switch handler for a map origin that serves the
selected path: the path stays selected (its rebuilt dropdown option
carries the selected attribute) and is redisplayed, and the URL keeps its
path parameter while the source parameter is rewritten. -/
theorem sourceChange_map_present (env : Env) (s : AppState) (v : String) (k : RawKnowledge)
    (es : List KnowledgeEdge) (axs ds : List KnowledgeNode) (pw : List (String × Nat)) (n : Nat)
    (hv : v ≠ "") (hn : jsStartsWith v "sckan" = false) (hp : s.path ≠ "")
    (hf : env.mapConnectivity v s.path = some k)
    (hc : k.connectivity = some es) (hne : es ≠ [])
    (ha : k.axons = some axs) (hd : k.dendrites = some ds)
    (hpw : env.pathways = some pw) (hmem : (s.path, n) ∈ pw) (hnz : n ≠ 0) :
    ∃ s2, sourceChange env s v = .ok s2 ∧
      s2.promptShown = false ∧ s2.currentPath = s.path ∧ s2.path = s.path ∧
      s2.connectivityGraph.isSome = true ∧
      mapGet s2.urlParams "path" = mapGet s.urlParams "path" ∧
      mapGet s2.urlParams "source" = some v ∧
      ∃ o, o ∈ s2.pathOptions ∧ o.value = s.path ∧ o.selected = true := by
  have hsl := setPathList_map env { s with source := v, sourceFromMap := true } rfl
  obtain ⟨s3, hshow⟩ := appShowGraph_map_present_ok env ({ s with source := v, sourceFromMap := true, knowledgeByPath := [], labelledTerms := [], pathOptions := promptOption :: (setPathsFromMap env).map (mkPathOption s.path) }) k es axs ds rfl hp hf hc hne ha hd
  have hfields := appShowGraph_ok_fields env _ s3 hshow hp
  have hrun : sourceChange env s v = .ok (updateURL s3 "source" s3.source) := by
    simp only [sourceChange, if_pos hv, hn, Bool.false_eq_true, if_false]
    rw [show setPathList env { s with source := v, sourceFromMap := true } = ({ s with source := v, sourceFromMap := true, knowledgeByPath := [], labelledTerms := [], pathOptions := promptOption :: (setPathsFromMap env).map (mkPathOption s.path) } : AppState) from hsl]
    rw [hshow]
  refine ⟨updateURL s3 "source" s3.source, hrun, ?_, ?_, ?_, ?_, ?_, ?_, ?_⟩
  · exact hfields.1
  · exact hfields.2.1
  · exact hfields.2.2.1
  · exact hfields.2.2.2.2.2.2
  · show mapGet (mapSet s3.urlParams "source" s3.source) "path" = mapGet s.urlParams "path"
    rw [mapGet_mapSet_ne _ _ _ _ (by decide)]
    rw [hfields.2.2.2.2.2.1]
  · show mapGet (mapSet s3.urlParams "source" s3.source) "source" = some v
    rw [mapGet_mapSet_eq, hfields.2.2.2.1]
  · refine ⟨mkPathOption s.path (s.path, ""), ?_, rfl, ?_⟩
    · show mkPathOption s.path (s.path, "") ∈ (updateURL s3 "source" s3.source).pathOptions
      have hopts : (updateURL s3 "source" s3.source).pathOptions = s3.pathOptions := rfl
      rw [hopts, hfields.2.2.2.2.1]
      refine List.mem_cons_of_mem _ (List.mem_map.mpr ⟨(s.path, ""), ?_, rfl⟩)
      rw [show setPathsFromMap env = (pw.filter (fun p => p.2 ≠ 0)).map (fun p => (p.1, ""))
          from by simp [setPathsFromMap, hpw]]
      exact List.mem_map.mpr ⟨(s.path, n), List.mem_filter.mpr ⟨hmem, by simp [hnz]⟩, rfl⟩
    · simp [mkPathOption, hp]

/-- C5 counterexample: switching from a knowledge-store release to a
map-backed origin whose pathway list does not contain the selected path
`P1` leaves the prompt hidden, the selected path `P1` in place, the URL
`path` parameter still set to `P1`, and a displayed graph (the MISSING
sentinel) — the graph is not cleared, the prompt is not shown, the
Selection State path does not become empty, and the URL parameter is not
removed, contrary to the claim. -/
theorem sourceChange_to_map_keeps_display :
    (sourceChange envNoPaths displayingP1 "map-uuid-1").toOption.map (fun s =>
      (s.promptShown, s.path, mapGet s.urlParams "path", s.connectivityGraph.isSome)) =
      some (false, "P1", some "P1", true) := by
  rfl

/-- C5 (amended): switching origin to a map-backed source never clears
the graph, empties the path, or touches the URL path parameter; it
reloads the path list from the map pathways and redisplays the currently
selected path. If the map does not serve that path, the empty-result
fallback makes the displayed graph the MISSING sentinel, with the prompt
hidden and the path and URL path parameter unchanged; if the map serves
it with a well-formed non-empty connectivity record, the path stays
selected in the rebuilt dropdown and is redisplayed. In both cases only
the `source` URL parameter is rewritten. (Clearing plus prompt happens
only on a switch to a knowledge-store origin whose list lacks the current
path — and even then the URL path parameter survives.) -/
theorem sourceChange_to_map_behavior :
    (∀ (env : Env) (s : AppState) (v : String),
      v ≠ "" → jsStartsWith v "sckan" = false → s.path ≠ "" →
      env.mapConnectivity v s.path = none →
      ∃ s2, sourceChange env s v = .ok s2 ∧
        s2.promptShown = false ∧
        s2.currentPath = s.path ∧
        s2.path = s.path ∧
        s2.connectivityGraph = some { missingSentinelGraph with cy := some s.layout } ∧
        mapGet s2.urlParams "path" = mapGet s.urlParams "path" ∧
        mapGet s2.urlParams "source" = some v) ∧
    (∀ (env : Env) (s : AppState) (v : String) (k : RawKnowledge)
       (es : List KnowledgeEdge) (axs ds : List KnowledgeNode)
       (pw : List (String × Nat)) (n : Nat),
      v ≠ "" → jsStartsWith v "sckan" = false → s.path ≠ "" →
      env.mapConnectivity v s.path = some k →
      k.connectivity = some es → es ≠ [] →
      k.axons = some axs → k.dendrites = some ds →
      env.pathways = some pw → (s.path, n) ∈ pw → n ≠ 0 →
      ∃ s2, sourceChange env s v = .ok s2 ∧
        s2.promptShown = false ∧ s2.currentPath = s.path ∧ s2.path = s.path ∧
        s2.connectivityGraph.isSome = true ∧
        mapGet s2.urlParams "path" = mapGet s.urlParams "path" ∧
        mapGet s2.urlParams "source" = some v ∧
        ∃ o, o ∈ s2.pathOptions ∧ o.value = s.path ∧ o.selected = true) := by
  constructor
  · intro env s v hv hn hp hf
    refine ⟨_, sourceChange_map_absent env s v hv hn hp hf, rfl, rfl, rfl, rfl, ?_, ?_⟩
    · show mapGet (mapSet s.urlParams "source" v) "path" = mapGet s.urlParams "path"
      exact mapGet_mapSet_ne s.urlParams "source" "path" v (by decide)
    · show mapGet (mapSet s.urlParams "source" v) "source" = some v
      exact mapGet_mapSet_eq s.urlParams "source" v
  · intro env s v k es axs ds pw n hv hn hp hf hc hne ha hd hpw hmem hnz
    exact sourceChange_map_present env s v k es axs ds pw n hv hn hp hf hc hne ha hd hpw hmem hnz

/-- C5 witness: the concrete origin switch of the counterexample scenario
instantiates the amended absent-path behavior. -/
theorem sourceChange_to_map_behavior_witness :
    ∃ s2, sourceChange envNoPaths displayingP1 "map-uuid-1" = .ok s2 ∧
      s2.promptShown = false ∧
      s2.currentPath = displayingP1.path ∧
      s2.path = displayingP1.path ∧
      s2.connectivityGraph =
        some { missingSentinelGraph with cy := some displayingP1.layout } ∧
      mapGet s2.urlParams "path" = mapGet displayingP1.urlParams "path" ∧
      mapGet s2.urlParams "source" = some "map-uuid-1" :=
  sourceChange_to_map_behavior.1 envNoPaths displayingP1 "map-uuid-1"
    (by decide) (by decide) (by decide) rfl

end ConnViewer
